import Mathlib

/-!
Verification of the Document Intelligence Engine of the
`intelligence_system` repository against its specification.

The repository ships the surrounding dashboard, generated database type
declarations (`src/unnamed/part_004`) and display helpers
(`transformDocumentForUI`, `ProjectCard`), while the engine itself
(fingerprinting, deduplication, attribution, ingestion, search) is only
declared — the Postgres functions `assign_document_to_project`,
`extract_project_number_from_text` and
`search_documents_with_project_context` appear as type signatures only.
Those engine components are therefore modelled from the specification,
as marked on each definition; the display helpers are translated from
the TypeScript source.
-/

namespace Intelligence

/-! ## Fingerprinter -/

/-- Modelled from the spec: the whitespace-collapsing, case-preserving text
normalization of §4.2 (the implementation is not in the repository sources).
Runs of whitespace become one space; `prev` records whether the previous
emitted character was part of a whitespace run. -/
def collapseAux : Bool → List Char → List Char
  | _, [] => []
  | prev, c :: cs =>
    if c.isWhitespace then
      if prev then collapseAux true cs
      else ' ' :: collapseAux true cs
    else c :: collapseAux false cs

/-- Modelled from the spec: normalized text = whitespace-collapsed,
case-preserved text (§4.2). -/
def normalize (s : String) : String :=
  String.mk (collapseAux false s.data)

/-- Modelled from the spec: the content-addressed digest over normalized
text of §4.2. The spec requires that equal hashes imply byte-equal
normalized text (no accepted collisions), so the model is the sequence of
code points of the normalized text, a collision-free digest. -/
def contentHash (t : String) : List Nat :=
  (normalize t).data.map Char.toNat

/-! ## Deduplication Engine -/

/-- Modelled from the spec: the stored document record of §3 with the
fields the Deduplication Engine reads (id, content hash, embedding-derived
signature, `updated_at`), plus the `version` back-reference of §4.3. -/
structure Doc where
  id : Nat
  title : String
  text : String
  hash : List Nat
  embedding : List ℚ
  updatedAt : Nat
  backRef : Option Nat
deriving DecidableEq, Repr

/-- Modelled from the spec: the store's `get_by_hash` lookup (§4.5),
returning the first stored document whose content hash matches. -/
def getByHash : List Doc → List Nat → Option Doc
  | [], _ => none
  | d :: ds, h => if d.hash = h then some d else getByHash ds h

/-- Modelled from the spec: the highest-similarity match of the
near-duplicate search (§4.3), ties broken by most-recent `updated_at`.
The similarity scorer `sim` is a parameter: the spec delegates
near-duplicate detection to the similarity search. -/
def bestMatch (sim : List ℚ → List ℚ → ℚ) (e : List ℚ) : List Doc → Option Doc
  | [] => none
  | d :: ds =>
    match bestMatch sim e ds with
    | none => some d
    | some b =>
      if sim e d.embedding > sim e b.embedding ∨
          (sim e d.embedding = sim e b.embedding ∧ d.updatedAt > b.updatedAt) then
        some d
      else some b

/-- Modelled from the spec: near-duplicate search at the configured
threshold (§4.3 step 2) — the best match is a candidate only when its
similarity reaches the threshold. -/
def nearDupCandidate (sim : List ℚ → List ℚ → ℚ) (thr : ℚ) (e : List ℚ)
    (store : List Doc) : Option Doc :=
  match bestMatch sim e store with
  | none => none
  | some d => if sim e d.embedding ≥ thr then some d else none

/-- Modelled from the spec: candidate selection of §4.3 — the exact-hash
lookup runs first; only when it finds nothing does the near-duplicate
search run. -/
def findCandidate (sim : List ℚ → List ℚ → ℚ) (thr : ℚ) (store : List Doc)
    (h : List Nat) (e : List ℚ) : Option Doc :=
  match getByHash store h with
  | some d => some d
  | none => nearDupCandidate sim thr e store

/-! ## Ingestion Pipeline -/

/-- Modelled from the spec: the closed ingestion-policy enumeration
{skip, update, replace, version, merge_metadata} of §4.3. -/
inductive IngestPolicy where
  | skip
  | update
  | replace
  | version
  | mergeMetadata
deriving DecidableEq, Repr

/-- Modelled from the spec: parsing of the loosely-typed policy string of
the ingestion entry point (§6, §9); any string outside the enumeration is
a configuration error. -/
def parsePolicy (s : String) : Option IngestPolicy :=
  if s = "skip" then some .skip
  else if s = "update" then some .update
  else if s = "replace" then some .replace
  else if s = "version" then some .version
  else if s = "merge_metadata" then some .mergeMetadata
  else none

/-- Modelled from the spec: the per-document action of `IngestionResult`
(§3): created/updated/skipped/versioned. -/
inductive IngestAction where
  | created
  | updated
  | skipped
  | versioned
deriving DecidableEq, Repr

/-- Modelled from the spec: one submitted document of the ingestion entry
point `ingest(documents: [{text, title, ...}], policy)` (§6). -/
structure DocIn where
  text : String
  title : String
deriving DecidableEq, Repr

/-- Modelled from the spec: `IngestionResult` (§3) — action taken,
persisted document id, matched document on deduplication, warnings, and a
fatal error mutually exclusive with the success fields. -/
structure IngestResult where
  action : Option IngestAction
  docId : Option Nat
  matched : Option Nat
  warnings : List String
  error : Option String
deriving DecidableEq, Repr

/-- Modelled from the spec: a deterministic fixed-dimension embedding of
the normalized text (§4.1); the model maps the text to the
one-dimensional vector holding the sum of its digest. -/
def embedText (t : String) : List ℚ :=
  [((contentHash t).sum : ℚ)]

/-- Modelled from the spec: the fresh row persisted for action `created`
(§4.3 step 3); the fresh id is the current store size. -/
def newDoc (store : List Doc) (input : DocIn) : Doc :=
  { id := store.length
    title := input.title
    text := input.text
    hash := contentHash input.text
    embedding := embedText input.text
    updatedAt := 0
    backRef := none }

/-- Modelled from the spec: the policy actions of §4.3 applied once the
deduplication candidate is known. No candidate means `created`; with a
candidate the ingestion policy decides the action. -/
def applyPolicy (store : List Doc) (input : DocIn) (p : IngestPolicy) :
    Option Doc → List Doc × IngestResult
  | none =>
    (store ++ [newDoc store input],
     { action := some .created, docId := some (newDoc store input).id,
       matched := none, warnings := [], error := none })
  | some c =>
    match p with
    | .skip =>
      (store,
       { action := some .skipped, docId := none, matched := some c.id,
         warnings := [], error := none })
    | .update =>
      (store.map (fun d =>
         if d.id = c.id then
           { d with title := input.title, text := input.text,
                    hash := contentHash input.text,
                    embedding := embedText input.text }
         else d),
       { action := some .updated, docId := some c.id, matched := some c.id,
         warnings := [], error := none })
    | .replace =>
      (store ++ [newDoc store input],
       { action := some .created, docId := some (newDoc store input).id,
         matched := some c.id,
         warnings := ["relations of the superseded row are not migrated"],
         error := none })
    | .version =>
      (store ++ [{ newDoc store input with backRef := some c.id }],
       { action := some .versioned, docId := some (newDoc store input).id,
         matched := some c.id, warnings := [], error := none })
    | .mergeMetadata =>
      (store.map (fun d =>
         if d.id = c.id then { d with title := input.title } else d),
       { action := some .updated, docId := some c.id, matched := some c.id,
         warnings := [], error := none })

/-- Modelled from the spec: one document's pass through the ingestion
pipeline (§4.6): fingerprint and embed the text, find the deduplication
candidate, then apply the policy. Empty or whitespace-only text is an
`EmbeddingError` (§4.1), fatal to that document only. -/
def ingestOne (sim : List ℚ → List ℚ → ℚ) (thr : ℚ) (store : List Doc)
    (input : DocIn) (p : IngestPolicy) : List Doc × IngestResult :=
  if input.text.data.all (·.isWhitespace) then
    (store, { action := none, docId := none, matched := none,
              warnings := [], error := some "EmbeddingError" })
  else
    applyPolicy store input p
      (findCandidate sim thr store (contentHash input.text)
        (embedText input.text))

/-- Modelled from the spec: fold step of batch ingestion — each document
moves through the pipeline independently (§4.6). -/
def ingestStep (sim : List ℚ → List ℚ → ℚ) (thr : ℚ) (p : IngestPolicy)
    (acc : List Doc × List IngestResult) (input : DocIn) :
    List Doc × List IngestResult :=
  let (store, results) := acc
  let (store', r) := ingestOne sim thr store input p
  (store', results ++ [r])

/-- Modelled from the spec: the batch ingestion entry point (§6, §7): an
unknown policy value is a configuration error that aborts the whole batch
before any document is processed. -/
def ingestBatch (sim : List ℚ → List ℚ → ℚ) (thr : ℚ) (store : List Doc)
    (inputs : List DocIn) (policy : String) :
    Except String (List Doc × List IngestResult) :=
  match parsePolicy policy with
  | none => .error "ConfigurationError: unknown ingestion policy"
  | some p => .ok (inputs.foldl (ingestStep sim thr p) (store, []))

/-! ## Attribution Resolver -/

/-- Modelled from the spec: the semantic signal contributes proportionally,
scaled to 0.0–1.0 (§4.4); values outside the unit interval are clamped. -/
def clamp01 (q : ℚ) : ℚ :=
  max 0 (min 1 q)

/-- Modelled from the spec: the high confidence an exact pattern match
contributes (§4.4, "e.g., 0.9"). -/
def patternConfidence : ℚ := mkRat 9 10

/-- Modelled from the spec: the default auto-assign threshold of §4.4. -/
def autoAssignThreshold : ℚ := mkRat 3 5

/-- Modelled from the spec: the best-matching candidate project of the
semantic signal (§4.4) — the project whose corpus has the highest cosine
similarity to the new document. -/
def bestSemantic : List (Nat × ℚ) → Option (Nat × ℚ)
  | [] => none
  | x :: xs =>
    match bestSemantic xs with
    | none => some x
    | some b => if x.2 > b.2 then some x else some b

/-- Modelled from the spec: combination of the pattern and semantic
signals (§4.4). Both signals on the same project: confidence is the
maximum of the two. Disagreeing projects: the pattern signal wins and
the disagreement flag (the recorded warning) is set. -/
def combineSignals :
    Option (Nat × ℚ) → Option (Nat × ℚ) → Option (Nat × ℚ) × Bool
  | some (p, pc), some (q, sc) =>
    if p = q then (some (p, max pc sc), false) else (some (p, pc), true)
  | some (p, pc), none => (some (p, pc), false)
  | none, some (q, sc) => (some (q, sc), false)
  | none, none => (none, false)

/-- Modelled from the spec: the attribution outcome of §4.4 — nullable
project reference, optional confidence in [0,1], the `needs_review` flag,
and the recorded signal-disagreement warning. -/
structure Attribution where
  projectRef : Option Nat
  confidence : Option ℚ
  needsReview : Bool
  disagreement : Bool
deriving DecidableEq, Repr

/-- Modelled from the spec: the auto-assign gate of §4.4 applied to the
combined signal — below the threshold the project reference stays null
and the document is flagged `needs_review`. -/
def finalizeAttribution (thr : ℚ) : Option (Nat × ℚ) × Bool → Attribution
  | (none, w) =>
    { projectRef := none, confidence := none,
      needsReview := true, disagreement := w }
  | (some (p, c), w) =>
    if c < thr then
      { projectRef := none, confidence := some c,
        needsReview := true, disagreement := w }
    else
      { projectRef := some p, confidence := some c,
        needsReview := false, disagreement := w }

/-- Modelled from the spec: the Attribution Resolver (§4.4). `pattern` is
the project matched exactly by a project-number-shaped token (if any);
`scores` are the per-project semantic similarities. -/
def resolveAttribution (pattern : Option Nat) (scores : List (Nat × ℚ))
    (thr : ℚ) : Attribution :=
  finalizeAttribution thr
    (combineSignals (pattern.map fun p => (p, patternConfidence))
      ((bestSemantic scores).map fun x => (x.1, clamp01 x.2)))

/-! ## Search Service / store similarity contract -/

/-- Modelled from the spec: a fixed-dimension embedding vector (§4.1). -/
abbrev Vec (n : Nat) := EuclideanSpace ℝ (Fin n)

/-- Modelled from the spec: cosine similarity between two embedding
vectors — their inner product divided by the product of their norms. -/
noncomputable def cosineSim {n : Nat} (u v : Vec n) : ℝ :=
  (inner u v : ℝ) / (‖u‖ * ‖v‖)

/-- Modelled from the spec: the stored record as read by the
`similarity_search` contract of §4.5 with the filterable metadata of §4.7. -/
structure SearchDoc (n : Nat) where
  id : Nat
  embedding : Vec n
  projectRef : Option Nat
  docType : String
  updatedAt : Nat

/-- Modelled from the spec: the metadata filters of the search read path
(§4.7, and the declared `search_documents_with_project_context`
arguments): optional project and document-type restrictions. -/
structure SearchFilters where
  projectRef : Option Nat
  docType : Option String
deriving DecidableEq, Repr

/-- Modelled from the spec: whether a stored document passes the filters;
an absent filter restricts nothing (§4.7). -/
def matchesFilters {n : Nat} (f : SearchFilters) (d : SearchDoc n) : Bool :=
  (match f.projectRef with
   | none => true
   | some p => d.projectRef = some p) &&
  (match f.docType with
   | none => true
   | some t => d.docType = t)

/-- Modelled from the spec: one ranked result of `similarity_search`
(§4.5): a document together with its similarity score. -/
structure SearchHit (n : Nat) where
  doc : SearchDoc n
  score : ℝ

/-- Modelled from the spec: the ranking order of §4.5 — higher score
first, ties broken by the more recently updated document. -/
def searchRel {n : Nat} (a b : SearchHit n) : Prop :=
  b.score < a.score ∨ (a.score = b.score ∧ b.doc.updatedAt ≤ a.doc.updatedAt)

noncomputable instance {n : Nat} : DecidableRel (@searchRel n) :=
  fun _ _ => Classical.dec _

instance {n : Nat} : IsTotal (SearchHit n) searchRel where
  total a b := by
    rcases lt_trichotomy a.score b.score with h | h | h
    · exact Or.inr (Or.inl h)
    · rcases Nat.le_total b.doc.updatedAt a.doc.updatedAt with h' | h'
      · exact Or.inl (Or.inr ⟨h, h'⟩)
      · exact Or.inr (Or.inr ⟨h.symm, h'⟩)
    · exact Or.inl (Or.inl h)

instance {n : Nat} : IsTrans (SearchHit n) searchRel where
  trans a b c hab hbc := by
    rcases hab with hab | ⟨hab, hab'⟩ <;> rcases hbc with hbc | ⟨hbc, hbc'⟩
    · exact Or.inl (hbc.trans hab)
    · exact Or.inl (hbc ▸ hab)
    · exact Or.inl (hab ▸ hbc)
    · exact Or.inr ⟨hab.trans hbc, le_trans hbc' hab'⟩

/-- Modelled from the spec: `similarity_search(query_vector, filters,
limit)` of §4.5 — scores every document passing the filters with cosine
similarity against the query vector, sorts descending with ties broken by
more recent `updated_at`, and truncates to the limit. -/
noncomputable def similaritySearch {n : Nat} (q : Vec n) (f : SearchFilters)
    (limit : Nat) (store : List (SearchDoc n)) : List (SearchHit n) :=
  (((store.filter (matchesFilters f)).map
      (fun d => SearchHit.mk d (cosineSim q d.embedding))).insertionSort
    searchRel).take limit

/-! ## Frontend display helpers (translated from the TypeScript source) -/

/-- The nullable row shape of the `strategic_documents` table as declared
in the generated Supabase types (`src/unnamed/part_004`); the `embedding`
and `metadata` columns are omitted as `transformDocumentForUI` never
reads them. -/
structure DatabaseStrategicDocument where
  client_id : Option Int
  content : String
  created_at : Option String
  document_type : Option String
  file_path : Option String
  file_size : Option Int
  id : String
  mime_type : Option String
  project_id : Option String
  source_file : Option String
  source_meeting_id : Option String
  title : String
  updated_at : Option String
deriving DecidableEq, Repr

/-- The frontend display shape `StrategicDocument` of
`src/unnamed/part_004`. -/
structure StrategicDocument where
  id : String
  title : String
  content : Option String
  document_type : Option String
  file_path : Option String
  file_size : Option Int
  mime_type : Option String
  source_file : Option String
  source_meeting_id : Option String
  project_id : Option String
  client_id : Option Int
  client_name : Option String
  project_name : Option String
  created_at : String
  updated_at : Option String
deriving DecidableEq, Repr

/-- JavaScript `x || undefined` on a nullable string: `null` and the empty
string (the falsy strings) become `undefined`. -/
def strFalsyToNone : Option String → Option String
  | none => none
  | some s => if s = "" then none else some s

/-- JavaScript `x || undefined` on a nullable number: `null` and `0` (the
falsy integers) become `undefined`. -/
def intFalsyToNone : Option Int → Option Int
  | none => none
  | some n => if n = 0 then none else some n

/-- The `transformDocumentForUI` helper of `src/unnamed/part_004`
(lines 35–53). `now` stands for `new Date().toISOString()`, the fallback
used when the row's `created_at` is falsy. -/
def transformDocumentForUI (db : DatabaseStrategicDocument) (now : String) :
    StrategicDocument :=
  { id := db.id
    title := db.title
    content := if db.content = "" then none else some db.content
    document_type := strFalsyToNone db.document_type
    file_path := strFalsyToNone db.file_path
    file_size := intFalsyToNone db.file_size
    mime_type := strFalsyToNone db.mime_type
    source_file := strFalsyToNone db.source_file
    source_meeting_id := strFalsyToNone db.source_meeting_id
    project_id := strFalsyToNone db.project_id
    client_id := intFalsyToNone db.client_id
    client_name := none
    project_name := none
    created_at :=
      match db.created_at with
      | none => now
      | some s => if s = "" then now else s
    updated_at := strFalsyToNone db.updated_at }

/-- The `costToRevenueRatio` computation of `ProjectCard`
(`src/unnamed/part_003`, lines 21–24):
`project.budget && project.budget > 0 ? (project.actual_cost || 0) /
project.budget * 100 : 0`. The JavaScript guard is truthiness of `budget`
(present and nonzero) conjoined with `budget > 0`. -/
def costToRevenueRatio (budget actual_cost : Option ℚ) : ℚ :=
  match budget with
  | none => 0
  | some b => if b ≠ 0 ∧ b > 0 then (actual_cost.getD 0) / b * 100 else 0

/-! ## Helper lemmas -/

theorem charToNat_injective : Function.Injective Char.toNat := by
  intro a b h
  rw [← Char.ofNat_toNat a, ← Char.ofNat_toNat b, h]

theorem clamp01_nonneg (q : ℚ) : 0 ≤ clamp01 q :=
  le_max_left 0 _

theorem clamp01_le_one (q : ℚ) : clamp01 q ≤ 1 :=
  max_le (by norm_num) (min_le_left _ _)

theorem bestSemantic_const (c : ℚ) :
    ∀ scores : List (Nat × ℚ), (∀ x ∈ scores, x.2 = c) →
      bestSemantic scores = none ∨ ∃ q, bestSemantic scores = some (q, c)
  | [], _ => Or.inl rfl
  | x :: xs, h => by
    have hx : x.2 = c := h x (List.mem_cons_self x xs)
    rcases bestSemantic_const c xs
        (fun y hy => h y (List.mem_cons_of_mem x hy)) with h0 | ⟨q, hq⟩
    · right
      refine ⟨x.1, ?_⟩
      simp only [bestSemantic, h0]
      exact congrArg some (Prod.ext rfl hx)
    · right
      refine ⟨q, ?_⟩
      simp [bestSemantic, hq, hx]

theorem finalizeAttribution_none (thr : ℚ) (w : Bool) :
    finalizeAttribution thr (none, w) =
      { projectRef := none, confidence := none,
        needsReview := true, disagreement := w } := rfl

theorem finalizeAttribution_some (thr : ℚ) (p : Nat) (c : ℚ) (w : Bool) :
    finalizeAttribution thr (some (p, c), w) =
      if c < thr then
        { projectRef := none, confidence := some c,
          needsReview := true, disagreement := w }
      else
        { projectRef := some p, confidence := some c,
          needsReview := false, disagreement := w } := rfl

theorem getByHash_cons (d : Doc) (ds : List Doc) (h : List Nat) :
    getByHash (d :: ds) h = if d.hash = h then some d else getByHash ds h := rfl

theorem getByHash_append_some (store : List Doc) (d : Doc) (h : List Nat)
    (h0 : getByHash store h = none) (hd : d.hash = h) :
    getByHash (store ++ [d]) h = some d := by
  induction store with
  | nil => simp [getByHash, hd]
  | cons a as ih =>
    rw [getByHash_cons] at h0
    by_cases ha : a.hash = h
    · rw [if_pos ha] at h0
      cases h0
    · rw [if_neg ha] at h0
      rw [List.cons_append, getByHash_cons, if_neg ha]
      exact ih h0

theorem getByHash_none_of_findCandidate_none
    (sim : List ℚ → List ℚ → ℚ) (thr : ℚ) (store : List Doc)
    (h : List Nat) (e : List ℚ)
    (hnc : findCandidate sim thr store h e = none) :
    getByHash store h = none := by
  unfold findCandidate at hnc
  rcases hg : getByHash store h with _ | d
  · rfl
  · rw [hg] at hnc
    cases hnc

theorem strFalsyToNone_eq_none_iff (o : Option String) :
    strFalsyToNone o = none ↔ (o = none ∨ o = some "") := by
  rcases o with _ | s
  · simp [strFalsyToNone]
  · by_cases hs : s = "" <;> simp [strFalsyToNone, hs]

theorem intFalsyToNone_eq_none_iff (o : Option Int) :
    intFalsyToNone o = none ↔ (o = none ∨ o = some 0) := by
  rcases o with _ | n
  · simp [intFalsyToNone]
  · by_cases hn : n = 0 <;> simp [intFalsyToNone, hn]

theorem combineSignals_same (p : Nat) (pc sc : ℚ) :
    combineSignals (some (p, pc)) (some (p, sc)) = (some (p, max pc sc), false) := by
  simp [combineSignals]

theorem combineSignals_diff (p q : Nat) (pc sc : ℚ) (h : p ≠ q) :
    combineSignals (some (p, pc)) (some (q, sc)) = (some (p, pc), true) := by
  simp [combineSignals, h]

/-! ## Claim theorems -/

/-- C1: in the Deduplication Engine the candidate is chosen by running the
exact-hash lookup first; whenever an exact-hash match exists, it is the
selected candidate, and in particular a near-duplicate candidate with a
different id never overrides it. -/
theorem dedup_exact_hash_precedence
    (sim : List ℚ → List ℚ → ℚ) (thr : ℚ) (store : List Doc)
    (h : List Nat) (e : List ℚ) (d : Doc)
    (hx : getByHash store h = some d) :
    findCandidate sim thr store h e = some d ∧
    (∀ d', nearDupCandidate sim thr e store = some d' → d'.id ≠ d.id →
      findCandidate sim thr store h e = some d) := by
  refine ⟨?_, fun _ _ _ => ?_⟩ <;> simp [findCandidate, hx]

/-- C1 witness: a store holding one document whose hash matches, while the
near-duplicate search (similarity constantly 1, above the threshold) finds
the same store's sole entry — the exact-hash candidate is returned. -/
theorem dedup_exact_hash_precedence_witness :
    getByHash [⟨0, "t", "x", [1], [0], 0, none⟩] [1] =
      some ⟨0, "t", "x", [1], [0], 0, none⟩ ∧
    findCandidate (fun _ _ => 1) 1 [⟨0, "t", "x", [1], [0], 0, none⟩] [1] [0] =
      some ⟨0, "t", "x", [1], [0], 0, none⟩ :=
  ⟨by decide,
   (dedup_exact_hash_precedence (fun _ _ => 1) 1
     [⟨0, "t", "x", [1], [0], 0, none⟩] [1] [0]
     ⟨0, "t", "x", [1], [0], 0, none⟩ (by decide)).1⟩

/-- C2: the Fingerprinter's content hash is deterministic, equal
normalized text yields equal hashes, and equal hashes imply byte-equal
normalized text (no accepted collisions). -/
theorem contentHash_deterministic_and_collision_free :
    (∀ t : String, contentHash t = contentHash t) ∧
    (∀ t₁ t₂ : String, normalize t₁ = normalize t₂ →
      contentHash t₁ = contentHash t₂) ∧
    (∀ t₁ t₂ : String, contentHash t₁ = contentHash t₂ →
      normalize t₁ = normalize t₂) := by
  refine ⟨fun _ => rfl, fun t₁ t₂ h => ?_, fun t₁ t₂ h => ?_⟩
  · rw [contentHash, contentHash, h]
  · have hd : (normalize t₁).data = (normalize t₂).data :=
      List.map_injective_iff.mpr charToNat_injective h
    exact congrArg String.mk hd

/-- C2 witness: two texts that differ only in whitespace runs normalize
identically, hence hash identically. -/
theorem contentHash_deterministic_and_collision_free_witness :
    normalize "a \t b" = normalize "a b" ∧
    contentHash "a \t b" = contentHash "a b" :=
  ⟨by decide,
   contentHash_deterministic_and_collision_free.2.1 "a \t b" "a b" (by decide)⟩

/-- C3: when the pattern and semantic signals point to the same project,
the combined confidence is the maximum of the two signal confidences;
when they point to different projects, the pattern signal's project is the
one chosen, at the pattern confidence, and the disagreement warning is
recorded. -/
theorem attribution_pattern_precedence_and_max
    (p q : Nat) (s : ℚ) (scores : List (Nat × ℚ)) (thr : ℚ)
    (hb : bestSemantic scores = some (q, s)) :
    (q = p → (resolveAttribution (some p) scores thr).confidence =
      some (max patternConfidence (clamp01 s))) ∧
    (q ≠ p →
      (resolveAttribution (some p) scores thr).confidence =
        some patternConfidence ∧
      (resolveAttribution (some p) scores thr).disagreement = true ∧
      (thr ≤ patternConfidence →
        (resolveAttribution (some p) scores thr).projectRef = some p)) := by
  constructor
  · rintro rfl
    unfold resolveAttribution
    rw [hb]
    simp only [Option.map_some']
    rw [combineSignals_same, finalizeAttribution_some]
    by_cases hth : max patternConfidence (clamp01 s) < thr <;>
      simp [hth]
  · intro hq
    unfold resolveAttribution
    rw [hb]
    simp only [Option.map_some']
    rw [combineSignals_diff _ _ _ _ (fun h => hq h.symm),
      finalizeAttribution_some]
    by_cases hth : patternConfidence < thr
    · rw [if_pos hth]
      exact ⟨rfl, rfl, fun hle => absurd hth (not_lt.mpr hle)⟩
    · rw [if_neg hth]
      exact ⟨rfl, rfl, fun _ => rfl⟩

/-- C3 witness: pattern signal on project 1, semantic signal on project 2
with similarity 1 — the pattern project wins at pattern confidence and the
disagreement is recorded. -/
theorem attribution_pattern_precedence_and_max_witness :
    (resolveAttribution (some 1) [(2, (1 : ℚ))] 0).confidence =
      some patternConfidence ∧
    (resolveAttribution (some 1) [(2, (1 : ℚ))] 0).disagreement = true ∧
    (resolveAttribution (some 1) [(2, (1 : ℚ))] 0).projectRef = some 1 :=
  let h :=
    (attribution_pattern_precedence_and_max 1 2 1 [(2, (1 : ℚ))] 0
      rfl).2 (by decide)
  ⟨h.1, h.2.1, h.2.2 (by decide)⟩

/-- C4: whenever the combined confidence lies below the auto-assign
threshold, the project reference is left null and the document is flagged
`needs_review`; in particular a document with no recognizable pattern and
semantic similarity 0.3 to every known project corpus ends unassigned and
flagged at the default threshold 0.6. -/
theorem attribution_below_threshold_needs_review :
    (∀ (pattern : Option Nat) (scores : List (Nat × ℚ)) (thr c : ℚ),
      (resolveAttribution pattern scores thr).confidence = some c → c < thr →
      (resolveAttribution pattern scores thr).projectRef = none ∧
      (resolveAttribution pattern scores thr).needsReview = true) ∧
    (∀ scores : List (Nat × ℚ), (∀ x ∈ scores, x.2 = mkRat 3 10) →
      (resolveAttribution none scores autoAssignThreshold).projectRef = none ∧
      (resolveAttribution none scores autoAssignThreshold).needsReview
        = true) := by
  constructor
  · intro pattern scores thr c hc hlt
    unfold resolveAttribution at hc ⊢
    rcases hcs : combineSignals (pattern.map fun p => (p, patternConfidence))
        ((bestSemantic scores).map fun x => (x.1, clamp01 x.2)) with ⟨o, w⟩
    rw [hcs] at hc ⊢
    rcases o with _ | ⟨p₀, c₀⟩
    · rw [finalizeAttribution_none] at hc
      exact absurd hc (by simp)
    · rw [finalizeAttribution_some] at hc ⊢
      by_cases hth : c₀ < thr
      · rw [if_pos hth]
        exact ⟨rfl, rfl⟩
      · rw [if_neg hth] at hc
        have hcc : c = c₀ := by simpa using hc.symm
        exact absurd (hcc ▸ hlt) hth
  · intro scores hs
    rcases bestSemantic_const (mkRat 3 10) scores hs with h0 | ⟨q, hq⟩
    · unfold resolveAttribution
      rw [h0]
      simp only [Option.map_none']
      exact ⟨rfl, rfl⟩
    · unfold resolveAttribution
      rw [hq]
      simp only [Option.map_none', Option.map_some']
      show (finalizeAttribution autoAssignThreshold
        (some (q, clamp01 (mkRat 3 10)), false)).projectRef = none ∧
        (finalizeAttribution autoAssignThreshold
          (some (q, clamp01 (mkRat 3 10)), false)).needsReview = true
      rw [finalizeAttribution_some,
        if_pos (by decide : clamp01 (mkRat 3 10) < autoAssignThreshold)]
      exact ⟨rfl, rfl⟩

/-- C4 witness: one known project with semantic similarity 0.3 and no
pattern signal — the document stays unassigned and needs review. -/
theorem attribution_below_threshold_needs_review_witness :
    (resolveAttribution none [(1, mkRat 3 10)] autoAssignThreshold).projectRef
      = none ∧
    (resolveAttribution none [(1, mkRat 3 10)] autoAssignThreshold).needsReview
      = true :=
  attribution_below_threshold_needs_review.2 [(1, mkRat 3 10)] (by decide)

/-- C5: every attribution outcome's confidence, when present, lies in the
closed interval [0, 1] — also when the pattern and semantic signals are
combined. -/
theorem attribution_confidence_in_unit_interval
    (pattern : Option Nat) (scores : List (Nat × ℚ)) (thr c : ℚ)
    (hc : (resolveAttribution pattern scores thr).confidence = some c) :
    0 ≤ c ∧ c ≤ 1 := by
  have hpc₀ : (0 : ℚ) ≤ patternConfidence := by decide
  have hpc₁ : patternConfidence ≤ 1 := by decide
  have hconf : ∀ (thr' : ℚ) (p₀ : Nat) (c₀ : ℚ) (w : Bool),
      (finalizeAttribution thr' (some (p₀, c₀), w)).confidence = some c₀ := by
    intro thr' p₀ c₀ w
    rw [finalizeAttribution_some]
    by_cases hth : c₀ < thr' <;> simp [hth]
  have hval : c = patternConfidence ∨
      (∃ s : ℚ, c = clamp01 s) ∨
      (∃ s : ℚ, c = max patternConfidence (clamp01 s)) := by
    rcases pattern with _ | p <;> rcases hbs : bestSemantic scores with _ | ⟨q, s⟩
    · unfold resolveAttribution at hc
      rw [hbs] at hc
      simp only [Option.map_none'] at hc
      have hc' : (none : Option ℚ) = some c := hc
      exact absurd hc' (by simp)
    · unfold resolveAttribution at hc
      rw [hbs] at hc
      simp only [Option.map_none', Option.map_some'] at hc
      have hc' : (finalizeAttribution thr
          (some (q, clamp01 s), false)).confidence = some c := hc
      rw [hconf] at hc'
      exact Or.inr (Or.inl ⟨s, by simpa using hc'.symm⟩)
    · unfold resolveAttribution at hc
      rw [hbs] at hc
      simp only [Option.map_none', Option.map_some'] at hc
      have hc' : (finalizeAttribution thr
          (some (p, patternConfidence), false)).confidence = some c := hc
      rw [hconf] at hc'
      exact Or.inl (by simpa using hc'.symm)
    · unfold resolveAttribution at hc
      rw [hbs] at hc
      simp only [Option.map_some'] at hc
      by_cases hpq : p = q
      · subst hpq
        rw [combineSignals_same, hconf] at hc
        exact Or.inr (Or.inr ⟨s, by simpa using hc.symm⟩)
      · rw [combineSignals_diff _ _ _ _ hpq, hconf] at hc
        exact Or.inl (by simpa using hc.symm)
  rcases hval with h | ⟨s, h⟩ | ⟨s, h⟩ <;> subst h
  · exact ⟨hpc₀, hpc₁⟩
  · exact ⟨clamp01_nonneg s, clamp01_le_one s⟩
  · exact ⟨le_trans hpc₀ (le_max_left _ _),
      max_le hpc₁ (clamp01_le_one s)⟩

/-- C5 witness: an outcome driven by the pattern signal alone has its
confidence inside [0, 1]. -/
theorem attribution_confidence_in_unit_interval_witness :
    0 ≤ patternConfidence ∧ patternConfidence ≤ 1 :=
  attribution_confidence_in_unit_interval (some 1) [] 1 patternConfidence
    (by decide)

/-- C6: ingesting byte-identical content twice with policy `skip` yields
`created` then `skipped`; the second result references the first document
as `matched_document_id`, the second call mutates no stored document, and
the document count rises by exactly one across the two calls. -/
theorem ingest_skip_created_then_skipped
    (sim : List ℚ → List ℚ → ℚ) (thr : ℚ) (store : List Doc) (input : DocIn)
    (hne : input.text.data.all (·.isWhitespace) = false)
    (hnc : findCandidate sim thr store (contentHash input.text)
      (embedText input.text) = none) :
    (ingestOne sim thr store input .skip).2.action = some .created ∧
    (ingestOne sim thr (ingestOne sim thr store input .skip).1 input
      .skip).2.action = some .skipped ∧
    (ingestOne sim thr (ingestOne sim thr store input .skip).1 input
      .skip).2.matched = (ingestOne sim thr store input .skip).2.docId ∧
    (ingestOne sim thr (ingestOne sim thr store input .skip).1 input
      .skip).1 = (ingestOne sim thr store input .skip).1 ∧
    (ingestOne sim thr store input .skip).1.length = store.length + 1 := by
  have hcond : ¬ (input.text.data.all (·.isWhitespace) = true) := by
    simp [hne]
  have h₁ : ingestOne sim thr store input .skip =
      (store ++ [newDoc store input],
       { action := some .created, docId := some (newDoc store input).id,
         matched := none, warnings := [], error := none }) := by
    unfold ingestOne
    rw [if_neg hcond, hnc]
    rfl
  have hgb : getByHash store (contentHash input.text) = none :=
    getByHash_none_of_findCandidate_none sim thr store _ _ hnc
  have hg2 : getByHash (store ++ [newDoc store input])
      (contentHash input.text) = some (newDoc store input) :=
    getByHash_append_some store _ _ hgb rfl
  have hfd : findCandidate sim thr (store ++ [newDoc store input])
      (contentHash input.text) (embedText input.text) =
      some (newDoc store input) := by
    simp [findCandidate, hg2]
  have h₂ : ingestOne sim thr (store ++ [newDoc store input]) input .skip =
      (store ++ [newDoc store input],
       { action := some .skipped, docId := none,
         matched := some (newDoc store input).id,
         warnings := [], error := none }) := by
    unfold ingestOne
    rw [if_neg hcond, hfd]
    rfl
  simp [h₁, h₂]

/-- C6 witness: ingesting "hello" twice into an empty store with policy
skip. -/
theorem ingest_skip_created_then_skipped_witness :
    ("hello" : String).data.all (·.isWhitespace) = false ∧
    findCandidate (fun _ _ => 0) 1 [] (contentHash "hello")
      (embedText "hello") = none ∧
    ((ingestOne (fun _ _ => 0) 1 [] ⟨"hello", "t"⟩ .skip).2.action
        = some .created ∧
     (ingestOne (fun _ _ => 0) 1
        (ingestOne (fun _ _ => 0) 1 [] ⟨"hello", "t"⟩ .skip).1
        ⟨"hello", "t"⟩ .skip).2.action = some .skipped ∧
     (ingestOne (fun _ _ => 0) 1
        (ingestOne (fun _ _ => 0) 1 [] ⟨"hello", "t"⟩ .skip).1
        ⟨"hello", "t"⟩ .skip).2.matched
        = (ingestOne (fun _ _ => 0) 1 [] ⟨"hello", "t"⟩ .skip).2.docId ∧
     (ingestOne (fun _ _ => 0) 1
        (ingestOne (fun _ _ => 0) 1 [] ⟨"hello", "t"⟩ .skip).1
        ⟨"hello", "t"⟩ .skip).1
        = (ingestOne (fun _ _ => 0) 1 [] ⟨"hello", "t"⟩ .skip).1 ∧
     (ingestOne (fun _ _ => 0) 1 [] ⟨"hello", "t"⟩ .skip).1.length
        = List.length ([] : List Doc) + 1) :=
  ⟨by decide, by decide,
   ingest_skip_created_then_skipped (fun _ _ => 0) 1 [] ⟨"hello", "t"⟩
     (by decide) (by decide)⟩

/-- C7: every result score of `similarity_search` is the cosine
similarity of the query with that document's embedding and lies in
[-1, 1]; results are sorted by score in descending order; any two results
of equal score are ordered with the more recently updated document
first. -/
theorem similaritySearch_scores_and_ranking {n : Nat} (q : Vec n)
    (f : SearchFilters) (lim : Nat) (store : List (SearchDoc n)) :
    (∀ r ∈ similaritySearch q f lim store,
      r.score = cosineSim q r.doc.embedding ∧
      -1 ≤ r.score ∧ r.score ≤ 1) ∧
    (similaritySearch q f lim store).Pairwise
      (fun a b => b.score ≤ a.score) ∧
    (similaritySearch q f lim store).Pairwise
      (fun a b => a.score = b.score → b.doc.updatedAt ≤ a.doc.updatedAt) := by
  have hsorted : List.Pairwise searchRel (similaritySearch q f lim store) :=
    List.Pairwise.sublist (List.take_sublist _ _)
      (List.sorted_insertionSort searchRel _)
  refine ⟨fun r hr => ?_, ?_, ?_⟩
  · have h1 : r ∈ ((store.filter (matchesFilters f)).map
        (fun d => SearchHit.mk d (cosineSim q d.embedding))).insertionSort
        searchRel := List.take_subset _ _ hr
    have h2 := (List.mem_insertionSort searchRel).mp h1
    obtain ⟨d, _, rfl⟩ := List.mem_map.mp h2
    have hb := abs_le.mp (abs_real_inner_div_norm_mul_norm_le_one q d.embedding)
    exact ⟨rfl, hb.1, hb.2⟩
  · refine hsorted.imp ?_
    intro a b hab
    rcases hab with h | ⟨h, _⟩
    · exact le_of_lt h
    · exact le_of_eq h.symm
  · refine hsorted.imp ?_
    intro a b hab heq
    rcases hab with h | ⟨_, h'⟩
    · exact absurd (heq ▸ h) (lt_irrefl _)
    · exact h'

/-- C7 witness: a one-document store; the returned score is a cosine
similarity lying in [-1, 1]. -/
theorem similaritySearch_scores_and_ranking_witness :
    cosineSim (0 : Vec 1) ((⟨0, 0, none, "m", 0⟩ : SearchDoc 1).embedding)
      = cosineSim (0 : Vec 1)
        ((⟨0, 0, none, "m", 0⟩ : SearchDoc 1).embedding) ∧
    -1 ≤ cosineSim (0 : Vec 1)
      ((⟨0, 0, none, "m", 0⟩ : SearchDoc 1).embedding) ∧
    cosineSim (0 : Vec 1)
      ((⟨0, 0, none, "m", 0⟩ : SearchDoc 1).embedding) ≤ 1 :=
  (similaritySearch_scores_and_ranking (0 : Vec 1) ⟨none, none⟩ 5
    [⟨0, 0, none, "m", 0⟩]).1
    (SearchHit.mk (⟨0, 0, none, "m", 0⟩ : SearchDoc 1)
      (cosineSim (0 : Vec 1) ((⟨0, 0, none, "m", 0⟩ : SearchDoc 1).embedding)))
    (List.mem_singleton.mpr rfl)

/-- C8: a batch submitted with a policy string outside the enumeration
{skip, update, replace, version, merge_metadata} is rejected whole with a
configuration error: the result carries no per-document outcome and no
store mutation, so no document is embedded, deduplicated or written. -/
theorem ingest_unknown_policy_rejected
    (sim : List ℚ → List ℚ → ℚ) (thr : ℚ) (store : List Doc)
    (inputs : List DocIn) (pol : String)
    (hp : pol ∉ ["skip", "update", "replace", "version", "merge_metadata"]) :
    ingestBatch sim thr store inputs pol =
      .error "ConfigurationError: unknown ingestion policy" := by
  simp only [List.mem_cons, List.not_mem_nil, or_false, not_or] at hp
  obtain ⟨h1, h2, h3, h4, h5⟩ := hp
  simp [ingestBatch, parsePolicy, h1, h2, h3, h4, h5]

/-- C8 witness: the policy string "bogus" aborts a nonempty batch before
any processing. -/
theorem ingest_unknown_policy_rejected_witness :
    "bogus" ∉ ["skip", "update", "replace", "version", "merge_metadata"] ∧
    ingestBatch (fun _ _ => 0) 1 [] [⟨"hello", "t"⟩] "bogus" =
      .error "ConfigurationError: unknown ingestion policy" :=
  ⟨by decide,
   ingest_unknown_policy_rejected (fun _ _ => 0) 1 [] [⟨"hello", "t"⟩]
     "bogus" (by decide)⟩

/-- C9: `transformDocumentForUI` preserves id and title, always produces a
non-empty `created_at` (falling back to the current time when the row has
none), and maps every falsy optional field to `undefined` — in particular
a `file_size` of 0 and an empty-string `content` become absent. -/
theorem transformDocumentForUI_fields (db : DatabaseStrategicDocument)
    (now : String) (hn : now ≠ "") :
    (transformDocumentForUI db now).id = db.id ∧
    (transformDocumentForUI db now).title = db.title ∧
    (transformDocumentForUI db now).created_at ≠ "" ∧
    (db.created_at = none → (transformDocumentForUI db now).created_at = now) ∧
    ((transformDocumentForUI db now).file_size = none ↔
      (db.file_size = none ∨ db.file_size = some 0)) ∧
    ((transformDocumentForUI db now).client_id = none ↔
      (db.client_id = none ∨ db.client_id = some 0)) ∧
    ((transformDocumentForUI db now).content = none ↔ db.content = "") ∧
    ((transformDocumentForUI db now).document_type = none ↔
      (db.document_type = none ∨ db.document_type = some "")) ∧
    ((transformDocumentForUI db now).file_path = none ↔
      (db.file_path = none ∨ db.file_path = some "")) ∧
    ((transformDocumentForUI db now).mime_type = none ↔
      (db.mime_type = none ∨ db.mime_type = some "")) ∧
    ((transformDocumentForUI db now).source_file = none ↔
      (db.source_file = none ∨ db.source_file = some "")) ∧
    ((transformDocumentForUI db now).source_meeting_id = none ↔
      (db.source_meeting_id = none ∨ db.source_meeting_id = some "")) ∧
    ((transformDocumentForUI db now).project_id = none ↔
      (db.project_id = none ∨ db.project_id = some "")) ∧
    ((transformDocumentForUI db now).updated_at = none ↔
      (db.updated_at = none ∨ db.updated_at = some "")) := by
  refine ⟨rfl, rfl, ?_, ?_,
    intFalsyToNone_eq_none_iff _, intFalsyToNone_eq_none_iff _, ?_,
    strFalsyToNone_eq_none_iff _, strFalsyToNone_eq_none_iff _,
    strFalsyToNone_eq_none_iff _, strFalsyToNone_eq_none_iff _,
    strFalsyToNone_eq_none_iff _, strFalsyToNone_eq_none_iff _,
    strFalsyToNone_eq_none_iff _⟩
  · cases h : db.created_at with
    | none => simpa [transformDocumentForUI, h] using hn
    | some s =>
      by_cases hs : s = "" <;> simp [transformDocumentForUI, h, hs, hn]
  · intro h
    simp [transformDocumentForUI, h]
  · by_cases hc : db.content = "" <;> simp [transformDocumentForUI, hc]

/-- C9 witness: a row with null `created_at`, `file_size` 0 and empty
content keeps its id, gets the current time as `created_at`, and loses
both falsy fields. -/
theorem transformDocumentForUI_fields_witness :
    (transformDocumentForUI
       ⟨none, "", none, none, none, some 0, "d1", none, none, none, none,
        "Title", none⟩ "2025-01-01T00:00:00.000Z").id = "d1" ∧
    (transformDocumentForUI
       ⟨none, "", none, none, none, some 0, "d1", none, none, none, none,
        "Title", none⟩ "2025-01-01T00:00:00.000Z").created_at =
      "2025-01-01T00:00:00.000Z" ∧
    (transformDocumentForUI
       ⟨none, "", none, none, none, some 0, "d1", none, none, none, none,
        "Title", none⟩ "2025-01-01T00:00:00.000Z").file_size = none ∧
    (transformDocumentForUI
       ⟨none, "", none, none, none, some 0, "d1", none, none, none, none,
        "Title", none⟩ "2025-01-01T00:00:00.000Z").content = none :=
  let h := transformDocumentForUI_fields
    ⟨none, "", none, none, none, some 0, "d1", none, none, none, none,
     "Title", none⟩ "2025-01-01T00:00:00.000Z" (by decide)
  ⟨h.1, h.2.2.2.1 rfl, h.2.2.2.2.1.mpr (Or.inr rfl),
   h.2.2.2.2.2.2.1.mpr rfl⟩

/-- C10: the ProjectCard cost-to-revenue ratio is a total computation that
divides `actual_cost` by `budget` only when the budget is present and
strictly positive; otherwise it is 0, and a missing `actual_cost` is
treated as 0, so the division-by-zero branch is unreachable. -/
theorem costToRevenueRatio_total_guarded :
    (∀ c, costToRevenueRatio none c = 0) ∧
    (∀ b c, b ≤ 0 → costToRevenueRatio (some b) c = 0) ∧
    (∀ b c, 0 < b → costToRevenueRatio (some b) c = (c.getD 0) / b * 100) ∧
    (∀ b, 0 < b → costToRevenueRatio (some b) none = 0) := by
  refine ⟨fun _ => rfl, fun b c hb => ?_, fun b c hb => ?_, fun b hb => ?_⟩
  · rw [costToRevenueRatio, if_neg]
    rintro ⟨-, hpos⟩
    exact absurd hpos (not_lt.mpr hb)
  · rw [costToRevenueRatio, if_pos ⟨ne_of_gt hb, hb⟩]
  · rw [costToRevenueRatio, if_pos ⟨ne_of_gt hb, hb⟩]
    simp

/-- C10 witness: with budget 200 and actual cost 50 the guarded division
branch is taken. -/
theorem costToRevenueRatio_total_guarded_witness :
    (0 : ℚ) < 200 ∧
    costToRevenueRatio (some 200) (some 50) =
      ((some (50 : ℚ)).getD 0) / 200 * 100 :=
  ⟨by decide, costToRevenueRatio_total_guarded.2.2.1 200 (some 50) (by decide)⟩

end Intelligence
